import Mathlib

/-!
Verification of the email-ingestion reconciliation pipeline
(Firebase cloud functions reading Gmail messages).

Shallow embedding of:
  - `getFullMessage`, `getAttachments` (src/functions/src/helpers/gmail.ts,
    second revision, the one with attachments support),
  - `processAndStoreEmail` (helpers/db.ts, revision with attachment upload),
  - `onNewMessageFunction` (src/functions/src/functions/onNewMessage.ts),
  - `onNewPendingMessageFunction` (src/unnamed/part_005).

External collaborators (Gmail API, mailparser, blob storage, JSON decoding)
are passed in as explicit function parameters.  Thrown JS exceptions are
modelled as `Except.error` / `Option String` error components; effects on
Firestore and the blob store are modelled as explicit state, together with
trace fields (`uploads`, `normalizations`, `providerCalls`) that record each
external call at the exact call site of the source.
-/

namespace ReadEmails

/-- JS truthiness of an optional string: `undefined`, `null` and `""` are
falsy, every other string is truthy. -/
def strTruthy : Option String → Bool
  | none => false
  | some s => s ≠ ""

/-- JS `x || null` for an optional string: keeps `x` when truthy, else null. -/
def strOrNull (o : Option String) : Option String :=
  if strTruthy o then o else none

/-- JS truthiness for an optional number (`0` is falsy). -/
def natTruthy : Option Nat → Bool
  | none => false
  | some n => n ≠ 0

/-- JS `x || null` for an optional number. -/
def natOrNull (o : Option Nat) : Option Nat :=
  if natTruthy o then o else none

/-- One entry of `message.payload.headers`. -/
structure Header where
  name : String
  value : Option String
deriving DecidableEq

/-- `Schema$MessagePartBody`: body of a message part. -/
structure MessagePartBody where
  attachmentId : Option String := none
  size : Option Nat := none
  data : Option String := none
deriving DecidableEq

/-- `Schema$MessagePart`: one part of a structured payload. -/
structure MessagePart where
  mimeType : Option String := none
  filename : Option String := none
  body : Option MessagePartBody := none
deriving DecidableEq

/-- `Schema$MessagePart` used as the top-level payload: headers and parts. -/
structure MessagePayload where
  headers : Option (List Header) := none
  parts : Option (List MessagePart) := none
deriving DecidableEq

/-- `Schema$Message`: the Gmail message as returned by the provider. -/
structure GmailMessage where
  id : Option String := none
  historyId : Option String := none
  raw : Option String := none
  payload : Option MessagePayload := none
  labelIds : Option (List String) := none
  snippet : Option String := none
deriving DecidableEq

/-- A mailparser address object; only its `.text` rendering is read. -/
structure AddressObject where
  text : String
deriving DecidableEq

/-- Result of mailparser's `simpleParser` on the decoded raw RFC-822 text.
The base64 decode (`Buffer.from(raw, 'base64').toString`) composed with
`simpleParser` is abstracted as one external parsing function producing
this structure; `html : none` also covers mailparser's `html = false`. -/
structure ParsedEmail where
  subject : Option String := none
  fromAddr : Option AddressObject := none
  toAddr : Option (Sum AddressObject (List AddressObject)) := none
  date : Option String := none
  html : Option String := none
  text : Option String := none
  attachments : List Unit := []
deriving DecidableEq

/-- The `to` field of the normalized record: a single string (structured
form, or raw form with a single address object) or an array of strings
(raw form with an address array). -/
inductive ToField where
  | str (s : String)
  | arr (l : List String)
deriving DecidableEq

/-- The transient attachment shape produced by `getFullMessage` /
`getAttachments` (every field goes through `|| null` in the source). -/
structure Attachment where
  id : Option String
  filename : Option String
  mimeType : Option String
  size : Option Nat
  data : Option String
deriving DecidableEq

/-- The normalized `EmailData` record produced by `getFullMessage`.
`date` is modelled by the source string handed to `new Date(...)`;
`fromAddr` embeds the source field `from` (a Lean keyword). -/
structure EmailData where
  messageId : String
  historyId : Option String
  subject : Option String
  fromAddr : Option String
  toField : Option ToField
  date : Option String
  body : Option String
  text : Option String
  labels : Option (List String)
  snippet : Option String
  hasAttachments : Bool
  attachments : Option (List Attachment)
deriving DecidableEq

/-- `headers.find(h => h.name === n)?.value`. -/
def findHeader (headers : List Header) (n : String) : Option String :=
  (headers.find? (fun h => h.name = n)).bind (·.value)

/-- The attachment record built for each `application/octet-stream` part in
the structured branch of `getFullMessage` (each field `|| null`). -/
def mkAttachment (p : MessagePart) : Attachment :=
  { id := strOrNull (p.body.bind (·.attachmentId))
  , filename := strOrNull p.filename
  , mimeType := strOrNull p.mimeType
  , size := natOrNull (p.body.bind (·.size))
  , data := strOrNull (p.body.bind (·.data)) }

/-- `parts.filter(part => part.mimeType === 'application/octet-stream')`. -/
def octetFilter (parts : List MessagePart) : List MessagePart :=
  parts.filter (fun p => p.mimeType = some "application/octet-stream")

/-- Error text thrown when the message id is missing. -/
def missingIdMsg (userId messageId : String) : String :=
  s!"Message ID does not exist for message {messageId} on user {userId} on processAndStoreEmail"

/-- Error text thrown when the history id is missing. -/
def missingHistoryIdMsg (userId messageId : String) : String :=
  s!"History ID does not exist for message {messageId} on user {userId} on processAndStoreEmail"

/-- Error text thrown when neither raw content nor a payload is present. -/
def noContentMsg (userId messageId : String) : String :=
  s!"No raw email content found for message {messageId} on user {userId} in processAndStoreEmail"

/-- `getFullMessage` (gmail.ts, attachment-aware revision): normalizes a
provider message into `EmailData`.  Handles the raw RFC-822 form (via the
external parser `parseRaw`) and the structured-parts form; throws (returns
`.error`) when the message id or history id is missing, when raw parsing
fails, or when neither a truthy `raw` nor a `payload` is present. -/
def getFullMessage (parseRaw : String → Except String ParsedEmail)
    (message : GmailMessage) (userId messageId : String) : Except String EmailData :=
  if strTruthy message.id then
    if strTruthy message.historyId then
      let id := message.id.getD ""
      if strTruthy message.raw then
        match parseRaw (message.raw.getD "") with
        | .error e => .error e
        | .ok parsedEmail =>
          .ok { messageId := id
              , historyId := strOrNull message.historyId
              , subject := strOrNull parsedEmail.subject
              , fromAddr := strOrNull (parsedEmail.fromAddr.map (·.text))
              , toField := match parsedEmail.toAddr with
                      | some (.inr l) => some (.arr (l.map (·.text)))
                      | some (.inl a) => (strOrNull (some a.text)).map .str
                      | none => none
              , date := strOrNull parsedEmail.date
              , body := strOrNull parsedEmail.html
              , text := strOrNull parsedEmail.text
              , labels := message.labelIds
              , snippet := strOrNull message.snippet
              , hasAttachments := parsedEmail.attachments.length > 0
              , attachments := none }
      else
        match message.payload with
        | some payload =>
          let headers := payload.headers
          let dateValue := headers.bind (fun hs => findHeader hs "Date")
          let subject := headers.bind (fun hs => findHeader hs "Subject")
          let fromValue := headers.bind (fun hs => findHeader hs "From")
          let toValue := headers.bind (fun hs => findHeader hs "To")
          let parts := payload.parts
          let body := parts.bind (fun ps =>
            ((ps.find? (fun p => p.mimeType = some "text/html")).bind (·.body)).bind (·.data))
          let text := parts.bind (fun ps =>
            ((ps.find? (fun p => p.mimeType = some "text/plain")).bind (·.body)).bind (·.data))
          let attachments := parts.map (fun ps => (octetFilter ps).map mkAttachment)
          let hasAttachments := (match attachments with
                                 | some l => l.length
                                 | none => 0) > 0
          .ok { messageId := id
              , historyId := strOrNull message.historyId
              , subject := strOrNull subject
              , fromAddr := strOrNull fromValue
              , toField := (strOrNull toValue).map .str
              , date := strOrNull dateValue
              , body := strOrNull body
              , text := strOrNull text
              , labels := message.labelIds
              , snippet := strOrNull message.snippet
              , hasAttachments := hasAttachments
              , attachments := attachments }
        | none =>
          .error (noContentMsg userId messageId)
    else
      .error (missingHistoryIdMsg userId messageId)
  else
    .error (missingIdMsg userId messageId)

/-- Metadata collected for an octet-stream part in the first loop of
`getAttachments` (`id`, `filename`, `mimeType` checked truthy; `size` is
pushed as-is). -/
structure AttMeta where
  id : String
  filename : String
  mimeType : String
  size : Option Nat
deriving DecidableEq

/-- Response of `gmail.users.messages.attachments.get(...).data`:
only its `data` field is read. -/
structure FetchedAttachment where
  data : Option String
deriving DecidableEq

/-- First loop of `getAttachments`: walk the parts, skip `text/html`,
collect `application/octet-stream` parts whose attachment id and filename
are truthy (the `!mimeType` check of the source is vacuous on this branch),
skip every other mime type. -/
def collectAttachmentParts : List MessagePart → List AttMeta
  | [] => []
  | part :: rest =>
    if part.mimeType = some "text/html" then
      collectAttachmentParts rest
    else if part.mimeType = some "application/octet-stream" then
      if strTruthy (part.body.bind (·.attachmentId)) then
        if strTruthy part.filename then
          { id := (part.body.bind (·.attachmentId)).getD ""
          , filename := part.filename.getD ""
          , mimeType := "application/octet-stream"
          , size := part.body.bind (·.size) } :: collectAttachmentParts rest
        else collectAttachmentParts rest
      else collectAttachmentParts rest
    else
      collectAttachmentParts rest

/-- Second loop of `getAttachments`: fetch each collected attachment's bytes
from the provider.  The first trace component records the attachment ids for
which a provider fetch was issued; a throwing fetch aborts the whole call,
a falsy response or falsy data merely skips the attachment. -/
def fetchLoop (fetch : String → Except String (Option FetchedAttachment)) :
    List AttMeta → List String → List Attachment →
    List String × Except String (List Attachment)
  | [], trace, acc => (trace, .ok acc)
  | meta :: rest, trace, acc =>
    let trace := trace ++ [meta.id]
    match fetch meta.id with
    | .error e => (trace, .error e)
    | .ok none => fetchLoop fetch rest trace acc
    | .ok (some mailAttachment) =>
      if strTruthy mailAttachment.data then
        fetchLoop fetch rest trace
          (acc ++ [{ id := some meta.id
                   , filename := some meta.filename
                   , mimeType := some meta.mimeType
                   , size := meta.size
                   , data := mailAttachment.data }])
      else fetchLoop fetch rest trace acc

/-- `getAttachments` (gmail.ts): re-fetches the full message (modelled by the
already-resolved `fetchMessage` result), requires `payload.parts` to be
present, collects octet-stream parts and fetches their bytes.  Returns the
fetch trace alongside the result. -/
def getAttachments (fetchMessage : Except String GmailMessage)
    (fetch : String → Except String (Option FetchedAttachment)) :
    List String × Except String (List Attachment) :=
  match fetchMessage with
  | .error e => ([], .error e)
  | .ok fullMessage =>
    match fullMessage.payload.bind (·.parts) with
    | none => ([], .error "No parts found")
    | some parts => fetchLoop fetch (collectAttachmentParts parts) [] []

/-- Arguments of one `uploadAttachment` call (blob-store upload).  The
buffer is represented by its base64 source string. -/
structure UploadParams where
  userId : String
  messageId : String
  attachmentId : Option String
  dataB64 : Option String
  filename : Option String
  contentType : Option String
deriving DecidableEq

/-- An attachment as persisted after a successful upload: the spread of the
transient attachment plus the obtained `downloadUrl`. -/
structure StoredAttachment where
  base : Attachment
  downloadUrl : String
deriving DecidableEq

/-- The `attachments` field finally written by `processAndStoreEmail`:
`attachmentsWithUrls` when at least one upload produced a URL, otherwise the
normalized (possibly null) attachment list. -/
inductive StoredAttachmentsField where
  | urls (l : List StoredAttachment)
  | plain (l : Option (List Attachment))
deriving DecidableEq

/-- One document of the `emails/userId/messages/messageId` collection. -/
structure StoredEmail where
  data : EmailData
  attachments : StoredAttachmentsField
  createdAt : Nat
deriving DecidableEq

/-- Firestore/blob-store state seen by `processAndStoreEmail`, with traces:
`uploads` records every `uploadAttachment` call issued (successful or not),
`normalizations` records every `getFullMessage` invocation. -/
structure PState where
  emails : List ((String × String) × StoredEmail)
  uploads : List UploadParams
  normalizations : List String
deriving DecidableEq

/-- Lookup of an email document by its `(userId, messageId)` key. -/
def findEmail : List ((String × String) × StoredEmail) → String × String →
    Option StoredEmail
  | [], _ => none
  | e :: rest, k => if e.1 = k then some e.2 else findEmail rest k

/-- Firestore `set`: replace the document at the key, or create it. -/
def setEmail : List ((String × String) × StoredEmail) → String × String →
    StoredEmail → List ((String × String) × StoredEmail)
  | [], k, v => [(k, v)]
  | e :: rest, k, v => if e.1 = k then (k, v) :: rest else e :: setEmail rest k v

/-- The attachment-upload loop of `processAndStoreEmail`: for each
attachment build the upload parameters (a `null` `data` makes
`Buffer.from(data, 'base64')` throw before any upload call) and call the
blob store; a failing upload rethrows out of the loop.  Successful uploads
accumulate `{...attachment, downloadUrl}`. -/
def uploadLoop (upload : UploadParams → Except String String)
    (userId id : String) :
    List Attachment → PState → List StoredAttachment →
    PState × Except String (List StoredAttachment)
  | [], st, acc => (st, .ok acc)
  | attachment :: rest, st, acc =>
    match attachment.data with
    | none => (st, .error "TypeError: first argument must be a string, Buffer, ArrayBuffer, Array, or Array-like Object")
    | some _ =>
      let p : UploadParams :=
        { userId := userId
        , messageId := id
        , attachmentId := attachment.id
        , dataB64 := attachment.data
        , filename := attachment.filename
        , contentType := attachment.mimeType }
      let st := { st with uploads := st.uploads ++ [p] }
      match upload p with
      | .error e => (st, .error e)
      | .ok downloadUrl =>
        uploadLoop upload userId id rest st
          (acc ++ [{ base := attachment, downloadUrl := downloadUrl }])

/-- `processAndStoreEmail` (db.ts, attachment-aware revision): skip if the
message id is missing (throw) or the email document already exists (return),
otherwise normalize via `getFullMessage`, upload attachments when
`hasAttachments && attachments`, and write the document with a fresh
`createdAt`.  An empty/invalid `userId` makes Firestore's
`.doc(userId)` constructor throw before the existence check.  The second
component is the thrown error, if any; the first is the resulting state
(effects performed before a throw are kept). -/
def processAndStoreEmail (parseRaw : String → Except String ParsedEmail)
    (upload : UploadParams → Except String String) (now : Nat)
    (message : GmailMessage) (userId messageId : String) (st : PState) :
    PState × Option String :=
  if strTruthy message.id then
    let id := message.id.getD ""
    if userId = "" then
      (st, some "Error: Value for argument documentPath is not a valid resource path")
    else if (findEmail st.emails (userId, id)).isSome then
      (st, none)
    else
      let st := { st with normalizations := st.normalizations ++ [id] }
      match getFullMessage parseRaw message userId messageId with
      | .error e => (st, some e)
      | .ok emailData =>
        let upRes :=
          if emailData.hasAttachments && emailData.attachments.isSome then
            uploadLoop upload userId id (emailData.attachments.getD []) st []
          else (st, .ok [])
        match upRes with
        | (st, .error e) => (st, some e)
        | (st, .ok attachmentsWithUrls) =>
          let stored : StoredEmail :=
            { data := emailData
            , attachments :=
                if attachmentsWithUrls.length > 0 then .urls attachmentsWithUrls
                else .plain emailData.attachments
            , createdAt := now }
          ({ st with emails := setEmail st.emails (userId, id) stored }, none)
  else
    (st, some (missingIdMsg userId messageId))

/-- Data decoded from the base64 pub/sub payload by `onNewMessageFunction`. -/
structure PushData where
  emailAddress : Option String := none
  historyId : Option String := none
  testId : Option String := none
deriving DecidableEq

/-- One document of the `pending-messages` collection. -/
structure PendingDoc where
  emailAddress : Option String := none
  historyId : Option String := none
  testId : Option String := none
  createdAt : Option Nat := none
  status : String
  errorMessage : Option String := none
  attempts : Nat
  updatedAt : Option Nat := none
deriving DecidableEq

/-- `onNewMessageFunction` (onNewMessage.ts): decode the push payload
(external `decode` models base64 + `JSON.parse`; a malformed payload throws
into the outer catch, which only logs), validate `emailAddress`/`historyId`
(missing → log and return, no document), otherwise create exactly one
pending document with status `pending` and `attempts` 0.  Any error is
swallowed by the outer catch, so the function never throws to its caller. -/
def onNewMessage (decode : String → Except String PushData) (now : Nat)
    (raw : String) (pending : List PendingDoc) : List PendingDoc :=
  match decode raw with
  | .error _ => pending
  | .ok data =>
    if strTruthy data.emailAddress && strTruthy data.historyId then
      pending ++ [{ emailAddress := data.emailAddress
                  , historyId := data.historyId
                  , testId := strOrNull data.testId
                  , createdAt := some now
                  , status := "pending"
                  , attempts := 0 }]
    else pending

/-- One document of the `users` collection as read by the worker. -/
structure UserDoc where
  uid : Option String := none
  email : Option String := none
  historyId : Option String := none
deriving DecidableEq

/-- The state touched by `onNewPendingMessageFunction`: the triggering
pending document (none models `event.data === undefined`), the `users`
collection, the email/blob state, and a trace of Gmail provider calls. -/
structure WorkerState where
  pendingDoc : Option PendingDoc
  users : List UserDoc
  pstate : PState
  providerCalls : List String
deriving DecidableEq

/-- `db.collection('users').where('email','==',e).limit(1)`: first user doc
whose `email` equals the given address. -/
def findUserByEmail (users : List UserDoc) (e : String) : Option UserDoc :=
  users.find? (fun u => u.email = some e)

/-- `doc.ref.update({historyId})` on the first user matching the email used
by the query. -/
def updateFirstUser : List UserDoc → String → Option String → List UserDoc
  | [], _, _ => []
  | u :: rest, e, hid =>
    if u.email = some e then { u with historyId := hid } :: rest
    else u :: updateFirstUser rest e hid

/-- Deterministic rendering standing in for `JSON.stringify(data)` in the
worker's validation error message. -/
def renderOptStr : Option String → String
  | none => "undefined"
  | some s => "\"" ++ s ++ "\""

/-- Rendering of the pending snapshot data used in the validation error. -/
def renderDoc (d : PendingDoc) : String :=
  "emailAddress: " ++ renderOptStr d.emailAddress ++
  ", historyId: " ++ renderOptStr d.historyId

/-- Trace entry recorded for each `getMessage` provider call of the worker
loop. -/
def fetchCall (messageId : String) : String :=
  s!"getMessage {messageId}"

/-- The per-message loop of `onNewPendingMessageFunction`: for each message
id, fetch the full message (`getMessage`, traced) and run
`processAndStoreEmail`; the first thrown error aborts the loop (there is no
per-message catch in the source).  A missing user uid reaches Firestore as
`doc(undefined)`, which throws inside `processAndStoreEmail`; this is folded
into that function's invalid-`userId` branch. -/
def workerLoop (getMsg : Option String → String → Except String GmailMessage)
    (parseRaw : String → Except String ParsedEmail)
    (upload : UploadParams → Except String String) (now : Nat)
    (userUid : Option String) :
    List String → PState → List String →
    PState × List String × Option String
  | [], stp, calls => (stp, calls, none)
  | messageId :: rest, stp, calls =>
    let calls := calls ++ [fetchCall messageId]
    match getMsg userUid messageId with
    | .error e => (stp, calls, some e)
    | .ok messageData =>
      match processAndStoreEmail parseRaw upload now messageData
          (userUid.getD "") messageId stp with
      | (stp, some e) => (stp, calls, some e)
      | (stp, none) => workerLoop getMsg parseRaw upload now userUid rest stp calls

/-- `onNewPendingMessageFunction` (src/unnamed/part_005).  The whole body is
wrapped in a try/catch whose handler only logs, so the function always
returns (errors after validation leave only the effects performed so far).
Steps: validate `emailAddress`/`historyId` (missing → update the pending doc
to status `error` with incremented `attempts` and fresh `updatedAt`, then
return); resolve the user by email (`docs[0]` of the query — an empty result
makes `doc.data()` throw, caught by the outer catch with no state change);
list message ids since the user's stored `historyId`; fetch and process each
message; finally set the user's `historyId` to the notification's value. -/
def onNewPendingMessage
    (getLatest : Option String → Option String → Except String (List String))
    (getMsg : Option String → String → Except String GmailMessage)
    (parseRaw : String → Except String ParsedEmail)
    (upload : UploadParams → Except String String) (now : Nat)
    (st : WorkerState) : WorkerState :=
  match st.pendingDoc with
  | none => st
  | some data =>
    if strTruthy data.emailAddress && strTruthy data.historyId then
      match findUserByEmail st.users (data.emailAddress.getD "") with
      | none => st
      | some user =>
        let st1 := { st with providerCalls := st.providerCalls ++ ["getLatestMessages"] }
        match getLatest user.uid user.historyId with
        | .error _ => st1
        | .ok messageIds =>
          match workerLoop getMsg parseRaw upload now user.uid messageIds
              st1.pstate st1.providerCalls with
          | (stp, calls, some _) =>
            { st1 with pstate := stp, providerCalls := calls }
          | (stp, calls, none) =>
            { st1 with
                pstate := stp
              , providerCalls := calls
              , users := updateFirstUser st1.users (data.emailAddress.getD "") data.historyId }
    else
      { st with pendingDoc := some { data with
          status := "error"
        , errorMessage := some ("Missing required data in pending message document " ++ renderDoc data)
        , updatedAt := some now
        , attempts := data.attempts + 1 } }

/-! Concrete fixtures used by witnesses and counterexamples. -/

/-- Fixture: a raw parser that always throws (never consulted in the
structured-form scenarios). -/
def parseRawNone : String → Except String ParsedEmail := fun _ => .error "parse error"

/-- Fixture: a blob store whose uploads always succeed. -/
def uploadOk : UploadParams → Except String String := fun _ => .ok "https://storage.example/url"

/-- Fixture: a blob store whose uploads always fail. -/
def uploadFail : UploadParams → Except String String := fun _ => .error "Upload failed"

/-- Fixture: a provider listing that returns no changed messages. -/
def glEmpty : Option String → Option String → Except String (List String) := fun _ _ => .ok []

/-- Fixture: a provider listing that returns messages `m1` and `m2`. -/
def glTwo : Option String → Option String → Except String (List String) := fun _ _ => .ok ["m1", "m2"]

/-- Fixture: a message fetch that always throws (never consulted when the
listing is empty). -/
def gmErr : Option String → String → Except String GmailMessage := fun _ _ => .error "fetch error"

/-- Fixture: an empty Firestore/blob state. -/
def pstate0 : PState := { emails := [], uploads := [], normalizations := [] }

/-- Fixture: a normalized record already present in the repository. -/
def emailDataFix : EmailData :=
  { messageId := "m1", historyId := some "h1", subject := none, fromAddr := none
  , toField := none, date := none, body := none, text := none, labels := none
  , snippet := none, hasAttachments := false, attachments := none }

/-- Fixture: the stored document for `emailDataFix`, created at time 1. -/
def storedFix : StoredEmail :=
  { data := emailDataFix, attachments := .plain none, createdAt := 1 }

/-- Fixture: a repository already holding the email `(u, m1)`. -/
def pstateFix : PState :=
  { emails := [(("u", "m1"), storedFix)], uploads := [], normalizations := [] }

/-- Fixture: a provider message with id `m1` and no other content. -/
def msgM1 : GmailMessage := { id := some "m1", historyId := some "h1" }

/-- Fixture: a structured-form message with one octet-stream attachment part. -/
def attPart : MessagePart :=
  { mimeType := some "application/octet-stream", filename := some "f.bin"
  , body := some { attachmentId := some "a1", size := some 3, data := some "QUJD" } }

/-- Fixture: the message carrying `attPart`. -/
def msgAtt : GmailMessage :=
  { id := some "m3", historyId := some "h8"
  , payload := some { headers := some [], parts := some [attPart] } }

/-- Fixture: the normalization of `msgAtt`. -/
def dAttFix : EmailData :=
  { messageId := "m3", historyId := some "h8", subject := none, fromAddr := none
  , toField := none, date := none, body := none, text := none, labels := none
  , snippet := none, hasAttachments := true
  , attachments := some [{ id := some "a1", filename := some "f.bin"
                         , mimeType := some "application/octet-stream"
                         , size := some 3, data := some "QUJD" }] }

/-- Fixture: the upload call issued for `msgAtt`'s attachment. -/
def upCallFix : UploadParams :=
  { userId := "u", messageId := "m3", attachmentId := some "a1"
  , dataB64 := some "QUJD", filename := some "f.bin"
  , contentType := some "application/octet-stream" }

/-- Fixture: the state after the failing upload attempt for `msgAtt`:
the upload call and the normalization are traced, nothing is written. -/
def pstateAfterFail : PState :=
  { emails := [], uploads := [upCallFix], normalizations := ["m3"] }

/-- Fixture: a structured-form message whose only part is a PNG image. -/
def pngPart : MessagePart :=
  { mimeType := some "image/png", filename := some "p.png"
  , body := some { attachmentId := some "a9", size := some 3, data := some "QUJD" } }

/-- Fixture: the message carrying `pngPart`. -/
def msgPng : GmailMessage :=
  { id := some "m4", historyId := some "h9"
  , payload := some { headers := some [], parts := some [pngPart] } }

/-- Fixture: an attachment fetch that always throws (never consulted when
no octet-stream part exists). -/
def fetchErr : String → Except String (Option FetchedAttachment) := fun _ => .error "no fetch"

/-- Fixture: a well-formed structured message `m2`. -/
def goodMsg : GmailMessage :=
  { id := some "m2", historyId := some "h7"
  , payload := some { headers := some [{ name := "Subject", value := some "hi" }]
                    , parts := some [] } }

/-- Fixture: a message fetch where `m1` comes back without an id and `m2`
is well-formed. -/
def gmNoId : Option String → String → Except String GmailMessage := fun _ mid =>
  if mid = "m1" then .ok { historyId := some "h1" } else .ok goodMsg

/-- Fixture: a valid pending notification for `a@x.com` at cursor 100. -/
def docOk : PendingDoc :=
  { emailAddress := some "a@x.com", historyId := some "100"
  , status := "pending", attempts := 0 }

/-- Fixture: a pending notification missing its `emailAddress`. -/
def docBad : PendingDoc :=
  { emailAddress := none, historyId := some "100"
  , status := "pending", attempts := 0 }

/-- Fixture: the user `a@x.com` with stored cursor 90. -/
def user90 : UserDoc :=
  { uid := some "u1", email := some "a@x.com", historyId := some "90" }

/-- Fixture: worker state with a valid notification and the user present. -/
def wstate0 : WorkerState :=
  { pendingDoc := some docOk, users := [user90], pstate := pstate0, providerCalls := [] }

/-- Fixture: worker state with a valid notification but no matching user. -/
def wstateNoUser : WorkerState :=
  { pendingDoc := some docOk, users := [], pstate := pstate0, providerCalls := [] }

/-- Fixture: worker state whose pending notification is missing its
`emailAddress`. -/
def wstateBad : WorkerState :=
  { pendingDoc := some docBad, users := [user90], pstate := pstate0, providerCalls := [] }

/-- Fixture: a push-payload decoder: `"bad"` is malformed JSON, anything
else decodes to a valid notification. -/
def decodeFix : String → Except String PushData := fun s =>
  if s = "bad" then .error "Unexpected token"
  else .ok { emailAddress := some "a@x.com", historyId := some "100" }

instance {ε α : Type} [DecidableEq ε] [DecidableEq α] : DecidableEq (Except ε α) := fun x y =>
  match x, y with
  | .error a, .error b =>
    if h : a = b then .isTrue (by simp [h]) else .isFalse (by simp [h])
  | .ok a, .ok b =>
    if h : a = b then .isTrue (by simp [h]) else .isFalse (by simp [h])
  | .error _, .ok _ => .isFalse (by simp)
  | .ok _, .error _ => .isFalse (by simp)

/-! Helper lemmas about the repository operations. -/

theorem findEmail_setEmail_self (es : List ((String × String) × StoredEmail))
    (k : String × String) (v : StoredEmail) :
    findEmail (setEmail es k v) k = some v := by
  induction es with
  | nil => simp [setEmail, findEmail]
  | cons e rest ih =>
    by_cases h : e.1 = k
    · simp [setEmail, findEmail, h]
    · simp [setEmail, findEmail, h, ih]

theorem findEmail_setEmail_ne (es : List ((String × String) × StoredEmail))
    (k k' : String × String) (v : StoredEmail) (h : k' ≠ k) :
    findEmail (setEmail es k v) k' = findEmail es k' := by
  induction es with
  | nil => simp [setEmail, findEmail, Ne.symm h]
  | cons e rest ih =>
    by_cases he : e.1 = k
    · subst he
      simp [setEmail, findEmail, Ne.symm h]
    · simp [setEmail, findEmail, he, ih]

theorem uploadLoop_emails (U : UploadParams → Except String String)
    (uid id : String) (atts : List Attachment) (st : PState)
    (acc : List StoredAttachment) :
    (uploadLoop U uid id atts st acc).1.emails = st.emails := by
  induction atts generalizing st acc with
  | nil => simp [uploadLoop]
  | cons a rest ih =>
    cases hd : a.data with
    | none => simp [uploadLoop, hd]
    | some s =>
      simp only [uploadLoop, hd]
      split
      · simp
      · simp [ih]

/-- Dedup gate: when the email document already exists (and the call does
not throw earlier), `processAndStoreEmail` returns without any effect. -/
theorem processAndStore_skip (P : String → Except String ParsedEmail)
    (U : UploadParams → Except String String) (N : Nat) (m : GmailMessage)
    (uid mid : String) (st : PState)
    (hid : strTruthy m.id = true) (huid : uid ≠ "")
    (hex : (findEmail st.emails (uid, m.id.getD "")).isSome = true) :
    processAndStoreEmail P U N m uid mid st = (st, none) := by
  unfold processAndStoreEmail
  simp [hid, huid, hex]

/-- `processAndStoreEmail` never modifies or removes an existing email
document (in particular its `createdAt`): it only ever creates a document
at a key that was absent. -/
theorem processAndStore_preserves (P : String → Except String ParsedEmail)
    (U : UploadParams → Except String String) (N : Nat) (m : GmailMessage)
    (uid mid : String) (st : PState) (k : String × String) (v : StoredEmail)
    (h : findEmail st.emails k = some v) :
    findEmail ((processAndStoreEmail P U N m uid mid st).1).emails k = some v := by
  unfold processAndStoreEmail
  by_cases hid : strTruthy m.id = true
  · by_cases huid : uid = ""
    · simp [hid, huid, h]
    · by_cases hex : (findEmail st.emails (uid, m.id.getD "")).isSome = true
      · simp [hid, huid, hex, h]
      · simp only [hid, huid, hex, if_true, if_false, if_neg, Bool.false_eq_true,
          ite_false, ite_true]
        have hk : k ≠ (uid, m.id.getD "") := by
          intro he
          rw [he] at h
          simp [h] at hex
        cases hgf : getFullMessage P m uid mid with
        | error e => simp [hgf, hid, huid, hex, h]
        | ok d =>
          by_cases ha : (d.hasAttachments && d.attachments.isSome) = true
          · simp only [hgf, hid, huid, hex, ha, Bool.false_eq_true, if_false,
              if_true, ite_false, ite_true]
            cases hu : uploadLoop U uid (m.id.getD "") (d.attachments.getD [])
                { st with normalizations := st.normalizations ++ [m.id.getD ""] } [] with
            | mk st2 res =>
              have hemails : st2.emails = st.emails := by
                have := uploadLoop_emails U uid (m.id.getD "") (d.attachments.getD [])
                  { st with normalizations := st.normalizations ++ [m.id.getD ""] } []
                rw [hu] at this
                simpa using this
              cases res with
              | error e => simp [hu, hemails, h]
              | ok withUrls =>
                simp only [hu]
                simp [findEmail_setEmail_ne _ _ _ _ hk, hemails, h]
          · simp only [hgf, hid, huid, hex, ha, Bool.false_eq_true, if_false,
              if_true, ite_false, ite_true]
            simp [ha, findEmail_setEmail_ne _ _ _ _ hk, h]
  · simp [hid, h]

/-- When `processAndStoreEmail` returns without throwing, the message id was
truthy, the user id valid, and the email document exists afterwards. -/
theorem processAndStore_success (P : String → Except String ParsedEmail)
    (U : UploadParams → Except String String) (N : Nat) (m : GmailMessage)
    (uid mid : String) (st st' : PState)
    (h : processAndStoreEmail P U N m uid mid st = (st', none)) :
    strTruthy m.id = true ∧ uid ≠ "" ∧
      (findEmail st'.emails (uid, m.id.getD "")).isSome = true := by
  unfold processAndStoreEmail at h
  by_cases hid : strTruthy m.id = true
  · by_cases huid : uid = ""
    · simp [hid, huid] at h
    · by_cases hex : (findEmail st.emails (uid, m.id.getD "")).isSome = true
      · simp only [hid, huid, hex, Bool.false_eq_true, if_false, if_true,
          ite_false, ite_true, if_neg, Prod.mk.injEq] at h
        refine ⟨hid, huid, ?_⟩
        rw [← h.1]
        exact hex
      · simp only [hid, huid, hex, Bool.false_eq_true, if_false, if_true,
          ite_false, ite_true, if_neg] at h
        cases hgf : getFullMessage P m uid mid with
        | error e => simp [hgf] at h
        | ok d =>
          rw [hgf] at h
          by_cases ha : (d.hasAttachments && d.attachments.isSome) = true
          · simp only [ha, if_true, ite_true] at h
            cases hu : uploadLoop U uid (m.id.getD "") (d.attachments.getD [])
                { st with normalizations := st.normalizations ++ [m.id.getD ""] } [] with
            | mk st2 res =>
              rw [hu] at h
              cases res with
              | error e => simp at h
              | ok withUrls =>
                simp only [Prod.mk.injEq] at h
                refine ⟨hid, huid, ?_⟩
                rw [← h.1]
                simp [findEmail_setEmail_self]
          · simp only [ha, Bool.false_eq_true, if_false, ite_false,
              Prod.mk.injEq] at h
            refine ⟨hid, huid, ?_⟩
            rw [← h.1]
            simp [findEmail_setEmail_self]
  · simp [hid] at h

/-- Whenever `processAndStoreEmail` throws, the `emails` collection is
untouched: the document write is the final step and only happens on full
success (all-or-nothing persistence). -/
theorem processAndStore_error_no_write (P : String → Except String ParsedEmail)
    (U : UploadParams → Except String String) (N : Nat) (m : GmailMessage)
    (uid mid : String) (st st' : PState) (e : String)
    (h : processAndStoreEmail P U N m uid mid st = (st', some e)) :
    st'.emails = st.emails := by
  unfold processAndStoreEmail at h
  by_cases hid : strTruthy m.id = true
  · by_cases huid : uid = ""
    · simp only [hid, huid, if_true, ite_true, Prod.mk.injEq] at h
      rw [← h.1]
    · by_cases hex : (findEmail st.emails (uid, m.id.getD "")).isSome = true
      · simp [hid, huid, hex] at h
      · simp only [hid, huid, hex, Bool.false_eq_true, if_false, if_true,
          ite_false, ite_true, if_neg] at h
        cases hgf : getFullMessage P m uid mid with
        | error e2 =>
          rw [hgf] at h
          simp only [Prod.mk.injEq] at h
          rw [← h.1]
        | ok d =>
          rw [hgf] at h
          by_cases ha : (d.hasAttachments && d.attachments.isSome) = true
          · simp only [ha, if_true, ite_true] at h
            cases hu : uploadLoop U uid (m.id.getD "") (d.attachments.getD [])
                { st with normalizations := st.normalizations ++ [m.id.getD ""] } [] with
            | mk st2 res =>
              rw [hu] at h
              have hemails : st2.emails = st.emails := by
                have := uploadLoop_emails U uid (m.id.getD "") (d.attachments.getD [])
                  { st with normalizations := st.normalizations ++ [m.id.getD ""] } []
                rw [hu] at this
                simpa using this
              cases res with
              | error e2 =>
                simp only [Prod.mk.injEq] at h
                rw [← h.1]
                exact hemails
              | ok withUrls => simp at h
          · simp only [ha, Bool.false_eq_true, if_false, ite_false] at h
            simp at h
  · simp only [hid, Bool.false_eq_true, if_false, ite_false, Prod.mk.injEq] at h
    rw [← h.1]

/-- The worker's message loop never modifies or removes an existing email
document, whatever its outcome. -/
theorem workerLoop_preserves (gm : Option String → String → Except String GmailMessage)
    (P : String → Except String ParsedEmail)
    (U : UploadParams → Except String String) (N : Nat) (uid : Option String)
    (mids : List String) (stp : PState) (calls : List String)
    (k : String × String) (v : StoredEmail)
    (h : findEmail stp.emails k = some v) :
    findEmail ((workerLoop gm P U N uid mids stp calls).1).emails k = some v := by
  induction mids generalizing stp calls with
  | nil => simpa [workerLoop] using h
  | cons mid rest ih =>
    simp only [workerLoop]
    cases hgm : gm uid mid with
    | error e => simpa [hgm] using h
    | ok msg =>
      cases hp : processAndStoreEmail P U N msg (uid.getD "") mid stp with
      | mk stp' res =>
        have hpres := processAndStore_preserves P U N msg (uid.getD "") mid stp k v h
        rw [hp] at hpres
        cases res with
        | some e => simpa [hgm, hp] using hpres
        | none =>
          simpa [hgm, hp] using ih stp' (calls ++ [fetchCall mid]) hpres

/-- Retry of a fully successful message loop: every message is re-fetched
(the provider calls repeat) but the dedup gate skips every store, upload and
normalization, leaving the repository state exactly as it was. -/
theorem workerLoop_idem (gm : Option String → String → Except String GmailMessage)
    (P : String → Except String ParsedEmail)
    (U : UploadParams → Except String String) (N : Nat) (uid : Option String)
    (mids : List String) (stp : PState) (calls calls1 : List String) (stp1 : PState)
    (h : workerLoop gm P U N uid mids stp calls = (stp1, calls1, none)) :
    ∀ calls2, workerLoop gm P U N uid mids stp1 calls2 =
      (stp1, calls2 ++ mids.map (fun mid => fetchCall mid), none) := by
  induction mids generalizing stp calls calls1 with
  | nil =>
    intro calls2
    simp only [workerLoop] at h ⊢
    simp only [Prod.mk.injEq] at h
    simp [h.1]
  | cons mid rest ih =>
    intro calls2
    simp only [workerLoop] at h ⊢
    cases hgm : gm uid mid with
    | error e => simp [hgm] at h
    | ok msg =>
      simp only [hgm] at h ⊢
      cases hp : processAndStoreEmail P U N msg (uid.getD "") mid stp with
      | mk stp' res =>
        simp only [hp] at h
        cases res with
        | some e => simp at h
        | none =>
          have h : workerLoop gm P U N uid rest stp'
              (calls ++ [fetchCall mid]) = (stp1, calls1, none) := h
          have hsucc := processAndStore_success P U N msg (uid.getD "") mid stp stp' hp
          obtain ⟨v, hv⟩ := Option.isSome_iff_exists.mp hsucc.2.2
          have hv1 : findEmail stp1.emails (uid.getD "", msg.id.getD "") = some v := by
            have := workerLoop_preserves gm P U N uid rest stp'
              (calls ++ [fetchCall mid]) (uid.getD "", msg.id.getD "") v hv
            rw [h] at this
            exact this
          have hskip : processAndStoreEmail P U N msg (uid.getD "") mid stp1 =
              (stp1, none) :=
            processAndStore_skip P U N msg (uid.getD "") mid stp1 hsucc.1 hsucc.2.1
              (by simp [hv1])
          simp only [hskip]
          have := ih stp' (calls ++ [fetchCall mid]) calls1 h
            (calls2 ++ [fetchCall mid])
          rw [this]
          simp

/-- C1: processing is idempotent and at-most-once per `(userId, messageId)`.
(1) When the email document already exists, `processAndStoreEmail` returns
with the state untouched: no normalization, no upload, no write.
(2) An existing document (hence its `createdAt`) is never modified by any
later call.  (3) Re-running a fully successful worker batch (the retry of a
notification resolving to the same messages) leaves the repository, upload
log and normalization log exactly as after the first run: every message is
skipped through the dedup gate. -/
theorem C1_idempotent_at_most_once :
    (∀ (P : String → Except String ParsedEmail)
        (U : UploadParams → Except String String) (N : Nat) (m : GmailMessage)
        (uid mid : String) (st : PState),
      strTruthy m.id = true → uid ≠ "" →
      (findEmail st.emails (uid, m.id.getD "")).isSome = true →
      processAndStoreEmail P U N m uid mid st = (st, none))
    ∧ (∀ (P : String → Except String ParsedEmail)
        (U : UploadParams → Except String String) (N : Nat) (m : GmailMessage)
        (uid mid : String) (st : PState) (k : String × String) (v : StoredEmail),
      findEmail st.emails k = some v →
      findEmail ((processAndStoreEmail P U N m uid mid st).1).emails k = some v)
    ∧ (∀ (gm : Option String → String → Except String GmailMessage)
        (P : String → Except String ParsedEmail)
        (U : UploadParams → Except String String) (N : Nat) (uid : Option String)
        (mids : List String) (stp : PState) (calls calls1 : List String)
        (stp1 : PState) (calls2 : List String),
      workerLoop gm P U N uid mids stp calls = (stp1, calls1, none) →
      (workerLoop gm P U N uid mids stp1 calls2).1 = stp1 ∧
        (workerLoop gm P U N uid mids stp1 calls2).2.2 = none) := by
  refine ⟨processAndStore_skip, processAndStore_preserves, ?_⟩
  intro gm P U N uid mids stp calls calls1 stp1 calls2 h
  rw [workerLoop_idem gm P U N uid mids stp calls calls1 stp1 h calls2]
  exact ⟨rfl, rfl⟩

/-- C1 witness: with `(u, m1)` already stored, re-processing message `m1`
leaves the state untouched and throws nothing. -/
theorem C1_witness :
    processAndStoreEmail parseRawNone uploadOk 3 msgM1 "u" "m1" pstateFix =
      (pstateFix, none) :=
  C1_idempotent_at_most_once.1 parseRawNone uploadOk 3 msgM1 "u" "m1" pstateFix
    (by decide) (by decide) (by decide)

/-- C2: all-or-nothing persistence.  (1) If the upload of any attachment of
a new message fails, `processAndStoreEmail` rethrows the failure, the
`emails` collection is untouched and the message's document is absent
(the successful earlier uploads of that message remain in the upload
trace, but no field of the record is written).  (2) In general, whenever
`processAndStoreEmail` throws, nothing was written.  (3) At the worker, a
message-loop failure aborts the notification: the user cursor is not
advanced and the pending document is untouched. -/
theorem C2_all_or_nothing :
    (∀ (P : String → Except String ParsedEmail)
        (U : UploadParams → Except String String) (N : Nat) (m : GmailMessage)
        (uid mid : String) (st st2 : PState) (e : String) (d : EmailData),
      strTruthy m.id = true → uid ≠ "" →
      (findEmail st.emails (uid, m.id.getD "")).isSome = false →
      getFullMessage P m uid mid = .ok d →
      (d.hasAttachments && d.attachments.isSome) = true →
      uploadLoop U uid (m.id.getD "") (d.attachments.getD [])
        { st with normalizations := st.normalizations ++ [m.id.getD ""] } [] =
        (st2, .error e) →
      processAndStoreEmail P U N m uid mid st = (st2, some e) ∧
        st2.emails = st.emails ∧
        findEmail st2.emails (uid, m.id.getD "") = none)
    ∧ (∀ (P : String → Except String ParsedEmail)
        (U : UploadParams → Except String String) (N : Nat) (m : GmailMessage)
        (uid mid : String) (st st' : PState) (e : String),
      processAndStoreEmail P U N m uid mid st = (st', some e) →
      st'.emails = st.emails)
    ∧ (∀ (gl : Option String → Option String → Except String (List String))
        (gm : Option String → String → Except String GmailMessage)
        (P : String → Except String ParsedEmail)
        (U : UploadParams → Except String String) (N : Nat) (st : WorkerState)
        (data : PendingDoc) (user : UserDoc) (mids : List String) (e : String),
      st.pendingDoc = some data →
      strTruthy data.emailAddress = true → strTruthy data.historyId = true →
      findUserByEmail st.users (data.emailAddress.getD "") = some user →
      gl user.uid user.historyId = .ok mids →
      (workerLoop gm P U N user.uid mids st.pstate
        (st.providerCalls ++ ["getLatestMessages"])).2.2 = some e →
      (onNewPendingMessage gl gm P U N st).users = st.users ∧
        (onNewPendingMessage gl gm P U N st).pendingDoc = st.pendingDoc) := by
  refine ⟨?_, ?_, ?_⟩
  · intro P U N m uid mid st st2 e d hid huid hex hgf ha hu
    have hkey : findEmail st.emails (uid, m.id.getD "") = none :=
      Option.not_isSome_iff_eq_none.mp (by simp [hex])
    have hmain : processAndStoreEmail P U N m uid mid st = (st2, some e) := by
      unfold processAndStoreEmail
      simp [hid, huid, hex, hgf, ha, hu]
    have hemails : st2.emails = st.emails := by
      have := uploadLoop_emails U uid (m.id.getD "") (d.attachments.getD [])
        { st with normalizations := st.normalizations ++ [m.id.getD ""] } []
      rw [hu] at this
      simpa using this
    exact ⟨hmain, hemails, by rw [hemails]; exact hkey⟩
  · intro P U N m uid mid st st' e h
    exact processAndStore_error_no_write P U N m uid mid st st' e h
  · intro gl gm P U N st data user mids e hdoc hea hhid huser hgl hwl
    obtain ⟨pd, users, pstate, calls⟩ := st
    simp only [WorkerState.pendingDoc] at hdoc
    subst hdoc
    simp only [WorkerState.users, WorkerState.pstate, WorkerState.providerCalls] at huser hgl hwl ⊢
    unfold onNewPendingMessage
    simp only [hea, hhid, Bool.and_self, if_true, ite_true, huser, hgl]
    cases hwl2 : workerLoop gm P U N user.uid mids pstate (calls ++ ["getLatestMessages"]) with
    | mk stp rest =>
      cases rest with
      | mk calls2 err =>
        rw [hwl2] at hwl
        simp only at hwl
        subst hwl
        simp

/-- C2 witness: the single attachment of message `m3` fails to upload:
the error propagates, the upload attempt is traced, and no email document
exists afterwards. -/
theorem C2_witness :
    processAndStoreEmail parseRawNone uploadFail 5 msgAtt "u" "m3" pstate0 =
      (pstateAfterFail, some "Upload failed") ∧
      pstateAfterFail.emails = pstate0.emails ∧
      findEmail pstateAfterFail.emails ("u", "m3") = none :=
  C2_all_or_nothing.1 parseRawNone uploadFail 5 msgAtt "u" "m3" pstate0
    pstateAfterFail "Upload failed" dAttFix (by decide) (by decide) (by decide)
    (by decide) (by decide) (by decide)

/-- C3 counterexample: user `a@x.com` has stored cursor 90, the
notification carries cursor 100, and the provider reports an *empty* batch.
The claim says the cursor is then left unchanged; the code overwrites it
with the notification's own `historyId` (100). -/
theorem C3_counterexample :
    (onNewPendingMessage glEmpty gmErr parseRawNone uploadOk 5 wstate0).users =
      [{ uid := some "u1", email := some "a@x.com", historyId := some "100" }] ∧
    (onNewPendingMessage glEmpty gmErr parseRawNone uploadOk 5 wstate0).users ≠
      wstate0.users := by
  decide

/-- C3 amended: after a batch that completes without error, the worker sets
the user's stored `historyId` to the *notification's* `historyId` — not to
the newest historyId observed among the processed messages — and it does so
unconditionally: also when the batch was empty, and also when that value is
older than the pre-batch cursor. -/
theorem C3_amended_cursor_rule
    (gl : Option String → Option String → Except String (List String))
    (gm : Option String → String → Except String GmailMessage)
    (P : String → Except String ParsedEmail)
    (U : UploadParams → Except String String) (N : Nat) (st : WorkerState)
    (data : PendingDoc) (user : UserDoc) (mids : List String)
    (hdoc : st.pendingDoc = some data)
    (hea : strTruthy data.emailAddress = true)
    (hhid : strTruthy data.historyId = true)
    (huser : findUserByEmail st.users (data.emailAddress.getD "") = some user)
    (hgl : gl user.uid user.historyId = .ok mids)
    (hwl : (workerLoop gm P U N user.uid mids st.pstate
      (st.providerCalls ++ ["getLatestMessages"])).2.2 = none) :
    (onNewPendingMessage gl gm P U N st).users =
      updateFirstUser st.users (data.emailAddress.getD "") data.historyId := by
  obtain ⟨pd, users, pstate, calls⟩ := st
  simp only [WorkerState.pendingDoc] at hdoc
  subst hdoc
  simp only [WorkerState.users, WorkerState.pstate, WorkerState.providerCalls] at huser hgl hwl ⊢
  unfold onNewPendingMessage
  simp only [hea, hhid, Bool.and_self, if_true, ite_true, huser, hgl]
  cases hwl2 : workerLoop gm P U N user.uid mids pstate (calls ++ ["getLatestMessages"]) with
  | mk stp rest =>
    cases rest with
    | mk calls2 err =>
      rw [hwl2] at hwl
      simp only at hwl
      subst hwl
      simp

/-- C3 witness: the empty-batch scenario of the counterexample satisfies
the amended rule: the cursor is set to the notification's value 100. -/
theorem C3_witness :
    (onNewPendingMessage glEmpty gmErr parseRawNone uploadOk 5 wstate0).users =
      updateFirstUser wstate0.users "a@x.com" (some "100") :=
  C3_amended_cursor_rule glEmpty gmErr parseRawNone uploadOk 5 wstate0 docOk user90 []
    (by decide) (by decide) (by decide) (by decide) (by decide) (by decide)

/-- C4 counterexample: a fully successful run (the provider listing
succeeds, every message is processed, the cursor is advanced) ends with the
notification still in status `pending`: the worker never writes
`processing` or `done`. -/
theorem C4_counterexample :
    (onNewPendingMessage glEmpty gmErr parseRawNone uploadOk 5 wstate0).pendingDoc =
      some docOk ∧
    docOk.status = "pending" ∧
    (onNewPendingMessage glEmpty gmErr parseRawNone uploadOk 5 wstate0).users =
      [{ uid := some "u1", email := some "a@x.com", historyId := some "100" }] := by
  decide

/-- C4 amended: the only status transition the worker ever performs is to
`error`, on payload-validation failure; in every other case (including a
fully successful run) the notification's status field is left exactly as it
was — it is never set to `processing` or `done`. -/
theorem C4_amended_status_transitions
    (gl : Option String → Option String → Except String (List String))
    (gm : Option String → String → Except String GmailMessage)
    (P : String → Except String ParsedEmail)
    (U : UploadParams → Except String String) (N : Nat) (st : WorkerState) :
    (onNewPendingMessage gl gm P U N st).pendingDoc.map PendingDoc.status =
      st.pendingDoc.map PendingDoc.status ∨
    (onNewPendingMessage gl gm P U N st).pendingDoc.map PendingDoc.status =
      some "error" := by
  obtain ⟨pd, users, pstate, calls⟩ := st
  cases pd with
  | none => left; rfl
  | some data =>
    unfold onNewPendingMessage
    by_cases hval : (strTruthy data.emailAddress && strTruthy data.historyId) = true
    · simp only [hval, if_true, ite_true]
      cases huser : findUserByEmail users (data.emailAddress.getD "") with
      | none => simp only [huser]; left; trivial
      | some user =>
        simp only [huser]
        cases hgl : gl user.uid user.historyId with
        | error e => simp only [hgl]; left; trivial
        | ok mids =>
          simp only [hgl]
          cases hwl : workerLoop gm P U N user.uid mids pstate
              (calls ++ ["getLatestMessages"]) with
          | mk stp rest =>
            cases rest with
            | mk calls2 err =>
              cases err with
              | none => simp only [hwl]; left; trivial
              | some e => simp only [hwl]; left; trivial
    · simp only [hval, Bool.false_eq_true, if_false, ite_false]
      right
      simp [Bool.not_eq_true] at hval
      simp [hval]

/-- C5: behavior of the worker at the failing input.  A valid notification
for `a@x.com` arrives while no user with that email exists: `docs[0]` is
undefined, `doc.data()` throws, the outer catch swallows the error, and the
worker returns with the state completely unchanged — the notification stays
`pending` with 0 attempts instead of being transitioned to `error` as the
claim (and the repository's own test) requires; the provider is never
contacted. -/
theorem C5_user_not_found_behavior :
    onNewPendingMessage glEmpty gmErr parseRawNone uploadOk 5 wstateNoUser =
      wstateNoUser := by
  decide

/-- C6 counterexample: the batch resolves to `m1` (whose fetched message
has no id) followed by the well-formed `m2`.  The claim says only `m1`
fails while `m2` is still processed; in the code the error thrown for `m1`
propagates to the worker's outer catch, so `m2` is neither fetched nor
processed and no email record at all is stored. -/
theorem C6_counterexample :
    (onNewPendingMessage glTwo gmNoId parseRawNone uploadOk 5 wstate0).pstate.emails =
      [] ∧
    (onNewPendingMessage glTwo gmNoId parseRawNone uploadOk 5 wstate0).providerCalls =
      ["getLatestMessages", fetchCall "m1"] := by
  decide

/-- C6 amended: `getFullMessage` maps both the raw RFC-822 form and the
structured-parts form into the `EmailData` schema, and a missing optional
field (no Date header, no parts, no attachments) never fails the record
(conjuncts 1 and 2 carry no hypotheses about those fields); a message
missing its required `messageId` fails with an error (conjunct 3), and in
the worker loop that error is not contained per-message: it aborts the
remaining messages of the batch, which are not fetched or processed
(conjunct 4); the worker's outer catch then logs it at notification level. -/
theorem C6_amended_normalization :
    (∀ (P : String → Except String ParsedEmail) (m : GmailMessage)
        (uid mid : String) (p : ParsedEmail),
      strTruthy m.id = true → strTruthy m.historyId = true →
      strTruthy m.raw = true → P (m.raw.getD "") = .ok p →
      (getFullMessage P m uid mid).isOk = true)
    ∧ (∀ (P : String → Except String ParsedEmail) (m : GmailMessage)
        (uid mid : String) (payload : MessagePayload),
      strTruthy m.id = true → strTruthy m.historyId = true →
      strTruthy m.raw = false → m.payload = some payload →
      (getFullMessage P m uid mid).isOk = true)
    ∧ (∀ (P : String → Except String ParsedEmail) (m : GmailMessage)
        (uid mid : String),
      strTruthy m.id = false →
      getFullMessage P m uid mid = .error (missingIdMsg uid mid))
    ∧ (∀ (gm : Option String → String → Except String GmailMessage)
        (P : String → Except String ParsedEmail)
        (U : UploadParams → Except String String) (N : Nat) (uid : Option String)
        (mid : String) (rest : List String) (stp : PState) (calls : List String)
        (msg : GmailMessage),
      gm uid mid = .ok msg → strTruthy msg.id = false →
      workerLoop gm P U N uid (mid :: rest) stp calls =
        (stp, calls ++ [fetchCall mid], some (missingIdMsg (uid.getD "") mid))) := by
  refine ⟨?_, ?_, ?_, ?_⟩
  · intro P m uid mid p hid hh hraw hp
    unfold getFullMessage
    simp [hid, hh, hraw, hp, Except.isOk, Except.toBool]
  · intro P m uid mid payload hid hh hraw hpay
    unfold getFullMessage
    simp [hid, hh, hraw, hpay, Except.isOk, Except.toBool]
  · intro P m uid mid hid
    unfold getFullMessage
    simp [hid]
  · intro gm P U N uid mid rest stp calls msg hgm hid
    simp only [workerLoop, hgm]
    unfold processAndStoreEmail
    simp [hid]

/-- C6 witness: in the counterexample batch, the loop stops at `m1` with
the missing-id error: the trace shows `m2` was never fetched and the state
is untouched. -/
theorem C6_witness :
    workerLoop gmNoId parseRawNone uploadOk 5 (some "u1") ["m1", "m2"] pstate0 [] =
      (pstate0, [fetchCall "m1"], some (missingIdMsg "u1" "m1")) :=
  C6_amended_normalization.2.2.2 gmNoId parseRawNone uploadOk 5 (some "u1") "m1"
    ["m2"] pstate0 [] { historyId := some "h1" } (by decide) (by decide)

/-- C7: intake validation.  A payload that fails to decode creates no
record and raises nothing; a decoded payload missing `emailAddress` or
`historyId` creates no record; a valid payload appends exactly one pending
document with status `pending` and `attempts` 0.  (The function is total:
no error ever reaches the caller.) -/
theorem C7_enqueue_validation :
    (∀ (decode : String → Except String PushData) (now : Nat) (raw : String)
        (pending : List PendingDoc) (e : String),
      decode raw = .error e → onNewMessage decode now raw pending = pending)
    ∧ (∀ (decode : String → Except String PushData) (now : Nat) (raw : String)
        (pending : List PendingDoc) (data : PushData),
      decode raw = .ok data →
      (strTruthy data.emailAddress = false ∨ strTruthy data.historyId = false) →
      onNewMessage decode now raw pending = pending)
    ∧ (∀ (decode : String → Except String PushData) (now : Nat) (raw : String)
        (pending : List PendingDoc) (data : PushData),
      decode raw = .ok data →
      strTruthy data.emailAddress = true → strTruthy data.historyId = true →
      onNewMessage decode now raw pending =
        pending ++ [{ emailAddress := data.emailAddress
                    , historyId := data.historyId
                    , testId := strOrNull data.testId
                    , createdAt := some now
                    , status := "pending"
                    , attempts := 0 }]) := by
  refine ⟨?_, ?_, ?_⟩
  · intro decode now raw pending e h
    unfold onNewMessage
    simp [h]
  · intro decode now raw pending data h hmiss
    unfold onNewMessage
    rcases hmiss with hm | hm <;> simp [h, hm]
  · intro decode now raw pending data h hea hhid
    unfold onNewMessage
    simp [h, hea, hhid]

/-- C7 witness: a valid push payload creates exactly one pending record
with status `pending` and 0 attempts. -/
theorem C7_witness :
    onNewMessage decodeFix 9 "ok" [] =
      [{ emailAddress := some "a@x.com", historyId := some "100", testId := none
       , createdAt := some 9, status := "pending", attempts := 0 }] :=
  C7_enqueue_validation.2.2 decodeFix 9 "ok" []
    { emailAddress := some "a@x.com", historyId := some "100" }
    (by decide) (by decide) (by decide)

/-- C8: worker payload validation.  For a pending document missing
`emailAddress` or `historyId`, the worker updates exactly that document to
status `error` with the descriptive message, increments `attempts`, stamps
`updatedAt` with the current time, and returns; every other part of the
state — including the provider-call trace — is untouched, so the mail
provider is never contacted. -/
theorem C8_worker_payload_validation
    (gl : Option String → Option String → Except String (List String))
    (gm : Option String → String → Except String GmailMessage)
    (P : String → Except String ParsedEmail)
    (U : UploadParams → Except String String) (N : Nat) (st : WorkerState)
    (data : PendingDoc)
    (hdoc : st.pendingDoc = some data)
    (hmiss : strTruthy data.emailAddress = false ∨ strTruthy data.historyId = false) :
    onNewPendingMessage gl gm P U N st =
      { st with pendingDoc := some { data with
          status := "error"
        , errorMessage := some ("Missing required data in pending message document "
            ++ renderDoc data)
        , updatedAt := some N
        , attempts := data.attempts + 1 } } := by
  obtain ⟨pd, users, pstate, calls⟩ := st
  simp only [WorkerState.pendingDoc] at hdoc
  subst hdoc
  have hval : (strTruthy data.emailAddress && strTruthy data.historyId) = false := by
    rcases hmiss with hm | hm <;> simp [hm]
  unfold onNewPendingMessage
  simp [hval]

/-- C8 witness: a pending document with no `emailAddress` is transitioned
to `error` with the descriptive message, `attempts` 1 and `updatedAt` 7,
and nothing else changes. -/
theorem C8_witness :
    onNewPendingMessage glEmpty gmErr parseRawNone uploadOk 7 wstateBad =
      { wstateBad with pendingDoc := some { docBad with
          status := "error"
        , errorMessage := some ("Missing required data in pending message document "
            ++ renderDoc docBad)
        , updatedAt := some 7
        , attempts := 1 } } :=
  C8_worker_payload_validation glEmpty gmErr parseRawNone uploadOk 7 wstateBad docBad
    (by decide) (Or.inl (by decide))

/-- C9: worker error containment.  The function is total by construction
(the outer try/catch is embedded as a total return), and once payload
validation has passed, no code path — user lookup failure, provider
failure, message-processing failure, or full success — ever writes to the
pending-message document again: its status, attempts and all other fields
keep their prior values. -/
theorem C9_worker_error_containment
    (gl : Option String → Option String → Except String (List String))
    (gm : Option String → String → Except String GmailMessage)
    (P : String → Except String ParsedEmail)
    (U : UploadParams → Except String String) (N : Nat) (st : WorkerState)
    (data : PendingDoc)
    (hdoc : st.pendingDoc = some data)
    (hea : strTruthy data.emailAddress = true)
    (hhid : strTruthy data.historyId = true) :
    (onNewPendingMessage gl gm P U N st).pendingDoc = st.pendingDoc := by
  obtain ⟨pd, users, pstate, calls⟩ := st
  simp only [WorkerState.pendingDoc] at hdoc
  subst hdoc
  unfold onNewPendingMessage
  simp only [hea, hhid, Bool.and_self, if_true, ite_true]
  cases huser : findUserByEmail users (data.emailAddress.getD "") with
  | none => simp only [huser]
  | some user =>
    simp only [huser]
    cases hgl : gl user.uid user.historyId with
    | error e => simp only [hgl]
    | ok mids =>
      simp only [hgl]
      cases hwl : workerLoop gm P U N user.uid mids pstate
          (calls ++ ["getLatestMessages"]) with
      | mk stp rest =>
        cases rest with
        | mk calls2 err =>
          cases err with
          | none => simp only [hwl]
          | some e => simp only [hwl]

/-- C9 witness: after a run whose provider listing is empty, the pending
document (status, attempts, everything) is exactly as before. -/
theorem C9_witness :
    (onNewPendingMessage glEmpty gmErr parseRawNone uploadOk 5 wstate0).pendingDoc =
      wstate0.pendingDoc :=
  C9_worker_error_containment glEmpty gmErr parseRawNone uploadOk 5 wstate0 docOk
    (by decide) (by decide) (by decide)

/-- Auxiliary for C10: a parts list without any octet-stream part filters
to the empty attachment list. -/
theorem octetFilter_eq_nil (parts : List MessagePart)
    (h : ∀ p ∈ parts, p.mimeType ≠ some "application/octet-stream") :
    octetFilter parts = [] := by
  induction parts with
  | nil => rfl
  | cons p rest ih =>
    have hp := h p (List.mem_cons_self p rest)
    have hrest : ∀ q ∈ rest, q.mimeType ≠ some "application/octet-stream" :=
      fun q hq => h q (List.mem_cons_of_mem p hq)
    simp only [octetFilter, List.filter] at ih ⊢
    simp [hp, ih hrest]

/-- Auxiliary for C10: a parts list without any octet-stream part yields no
collected attachment metadata in `getAttachments`. -/
theorem collectAttachmentParts_eq_nil (parts : List MessagePart)
    (h : ∀ p ∈ parts, p.mimeType ≠ some "application/octet-stream") :
    collectAttachmentParts parts = [] := by
  induction parts with
  | nil => rfl
  | cons p rest ih =>
    have hp := h p (List.mem_cons_self p rest)
    have hrest : ∀ q ∈ rest, q.mimeType ≠ some "application/octet-stream" :=
      fun q hq => h q (List.mem_cons_of_mem p hq)
    simp only [collectAttachmentParts]
    by_cases hhtml : p.mimeType = some "text/html"
    · simp [hhtml, ih hrest]
    · simp [hhtml, hp, ih hrest]

/-- Auxiliary for C10: every collected attachment metadata entry has mime
type exactly `application/octet-stream`. -/
theorem collectAttachmentParts_mime (parts : List MessagePart) (meta : AttMeta)
    (hm : meta ∈ collectAttachmentParts parts) :
    meta.mimeType = "application/octet-stream" := by
  induction parts with
  | nil => simp [collectAttachmentParts] at hm
  | cons p rest ih =>
    simp only [collectAttachmentParts] at hm
    by_cases hhtml : p.mimeType = some "text/html"
    · rw [if_pos hhtml] at hm
      exact ih hm
    · rw [if_neg hhtml] at hm
      by_cases hoct : p.mimeType = some "application/octet-stream"
      · rw [if_pos hoct] at hm
        by_cases hid : strTruthy (p.body.bind (·.attachmentId)) = true
        · rw [if_pos hid] at hm
          by_cases hfn : strTruthy p.filename = true
          · rw [if_pos hfn] at hm
            rcases List.mem_cons.mp hm with he | hm2
            · rw [he]
            · exact ih hm2
          · rw [if_neg hfn] at hm
            exact ih hm
        · rw [if_neg hid] at hm
          exact ih hm
      · rw [if_neg hoct] at hm
        exact ih hm

/-- C10: attachment detection is restricted to the exact MIME type
`application/octet-stream`: (1) the structured-form attachment filter of
`getFullMessage` keeps only such parts; (2) `getAttachments` collects only
such parts; (3) for a structured message none of whose parts has that MIME
type, `hasAttachments` is `false` and `attachments` is the empty list;
(4) `getAttachments` on such a message fetches no attachment bytes at all;
(5) `processAndStoreEmail` on such a message issues no blob upload. -/
theorem C10_attachment_mime_restriction :
    (∀ (parts : List MessagePart) (p : MessagePart),
      p ∈ octetFilter parts → p.mimeType = some "application/octet-stream")
    ∧ (∀ (parts : List MessagePart) (meta : AttMeta),
      meta ∈ collectAttachmentParts parts →
      meta.mimeType = "application/octet-stream")
    ∧ (∀ (P : String → Except String ParsedEmail) (m : GmailMessage)
        (uid mid : String) (payload : MessagePayload) (parts : List MessagePart),
      strTruthy m.id = true → strTruthy m.historyId = true →
      strTruthy m.raw = false → m.payload = some payload →
      payload.parts = some parts →
      (∀ p ∈ parts, p.mimeType ≠ some "application/octet-stream") →
      ∃ d, getFullMessage P m uid mid = .ok d ∧
        d.hasAttachments = false ∧ d.attachments = some [])
    ∧ (∀ (fetch : String → Except String (Option FetchedAttachment))
        (msg : GmailMessage) (parts : List MessagePart),
      msg.payload.bind (fun p => p.parts) = some parts →
      (∀ p ∈ parts, p.mimeType ≠ some "application/octet-stream") →
      getAttachments (.ok msg) fetch = ([], .ok []))
    ∧ (∀ (P : String → Except String ParsedEmail)
        (U : UploadParams → Except String String) (N : Nat) (m : GmailMessage)
        (uid mid : String) (st : PState) (payload : MessagePayload)
        (parts : List MessagePart),
      strTruthy m.raw = false → m.payload = some payload →
      payload.parts = some parts →
      (∀ p ∈ parts, p.mimeType ≠ some "application/octet-stream") →
      ((processAndStoreEmail P U N m uid mid st).1).uploads = st.uploads) := by
  refine ⟨?_, ?_, ?_, ?_, ?_⟩
  · intro parts p hp
    have := (List.mem_filter.mp hp).2
    exact of_decide_eq_true this
  · exact collectAttachmentParts_mime
  · intro P m uid mid payload parts hid hh hraw hpay hparts hnone
    have hnil : octetFilter parts = [] := octetFilter_eq_nil parts hnone
    unfold getFullMessage
    simp only [hid, hh, hraw, hpay, Bool.false_eq_true, if_false, if_true,
      ite_false, ite_true]
    refine ⟨_, rfl, ?_, ?_⟩
    · simp [hparts, hnil]
    · simp [hparts, hnil]
  · intro fetch msg parts hparts hnone
    unfold getAttachments
    simp [hparts, collectAttachmentParts_eq_nil parts hnone, fetchLoop]
  · intro P U N m uid mid st payload parts hraw hpay hparts hnone
    unfold processAndStoreEmail
    by_cases hid : strTruthy m.id = true
    · by_cases huid : uid = ""
      · simp [hid, huid]
      · by_cases hex : (findEmail st.emails (uid, m.id.getD "")).isSome = true
        · simp [hid, huid, hex]
        · by_cases hh : strTruthy m.historyId = true
          · have hnil : octetFilter parts = [] := octetFilter_eq_nil parts hnone
            have hgf : getFullMessage P m uid mid =
                .ok { messageId := m.id.getD ""
                    , historyId := strOrNull m.historyId
                    , subject := strOrNull (payload.headers.bind (fun hs => findHeader hs "Subject"))
                    , fromAddr := strOrNull (payload.headers.bind (fun hs => findHeader hs "From"))
                    , toField := (strOrNull (payload.headers.bind (fun hs => findHeader hs "To"))).map .str
                    , date := strOrNull (payload.headers.bind (fun hs => findHeader hs "Date"))
                    , body := strOrNull (payload.parts.bind (fun ps =>
                        ((ps.find? (fun p => p.mimeType = some "text/html")).bind (·.body)).bind (·.data)))
                    , text := strOrNull (payload.parts.bind (fun ps =>
                        ((ps.find? (fun p => p.mimeType = some "text/plain")).bind (·.body)).bind (·.data)))
                    , labels := m.labelIds
                    , snippet := strOrNull m.snippet
                    , hasAttachments := false
                    , attachments := some [] } := by
              unfold getFullMessage
              simp only [hid, hh, hraw, hpay, Bool.false_eq_true, if_false,
                if_true, ite_false, ite_true]
              simp [hparts, hnil]
            simp [hid, huid, hex, hgf]
          · have hgf : getFullMessage P m uid mid =
                .error (missingHistoryIdMsg uid mid) := by
              unfold getFullMessage
              simp [hid, hh]
            simp [hid, huid, hex, hgf]
    · simp [hid]

/-- C10 witness: the message whose only part is a PNG image yields no
attachment fetch at all in `getAttachments`. -/
theorem C10_witness :
    getAttachments (.ok msgPng) fetchErr = ([], .ok []) :=
  C10_attachment_mime_restriction.2.2.2.1 fetchErr msgPng [pngPart]
    (by decide) (by decide)

end ReadEmails
